import Mathlib

/-!
# Verification of Envoy's watermark buffer and buffer-memory accounting

Shallow embedding of `source/common/buffer/watermark_buffer.{h,cc}`:
the `WatermarkBuffer` watermark state machine, `WatermarkBuffer::setWatermarks`,
`WatermarkBuffer::reserveForRead`, `BufferMemoryAccountImpl` balance
classification and `WatermarkBufferFactory` bucket bookkeeping, together with
theorems about the watermark-callback and account-bucket behaviour.

The base byte buffer (`OwnedImpl`) is external to the translated sources; its
effect on `length()` for each mutating operation (append, prepend, splice,
drain, front-slice extraction) is modelled from the spec's operation table.
-/

namespace Envoy
namespace Buffer

/-- A watermark callback invocation: one of the three closures wired at
construction (`below_low_watermark_`, `above_high_watermark_`,
`above_overflow_watermark_`). -/
inductive WatermarkEvent where
  | aboveHigh
  | belowLow
  | aboveOverflow
deriving DecidableEq, Repr

/-- State of a `WatermarkBuffer`: the base buffer's byte count (`OwnedImpl`
length, a `uint64_t`, modelled as `Nat`), the three `uint32_t` watermark
fields and the two callback-state booleans, exactly the data members of
`WatermarkBuffer` in `watermark_buffer.h`. -/
structure WatermarkBuffer where
  length : Nat
  high_watermark : Nat
  low_watermark : Nat
  overflow_watermark : Nat
  above_high_watermark_called : Bool
  above_overflow_watermark_called : Bool
deriving DecidableEq, Repr

/-- `std::numeric_limits<uint32_t>::max()`. -/
def UINT32_MAX : Nat := 4294967295

/-- `WatermarkBuffer::checkHighAndOverflowWatermarks` from
`watermark_buffer.cc`: early-return when `high_watermark_ == 0 || length() <=
high_watermark_`; otherwise fire `above_high_watermark_` if it has not been
called, then fire `above_overflow_watermark_` if the overflow watermark is
enabled, not yet triggered, and `length() > overflow_watermark_`.  Returns the
updated state and the list of callback invocations in order. -/
def checkHighAndOverflowWatermarks (b : WatermarkBuffer) :
    WatermarkBuffer × List WatermarkEvent :=
  if b.high_watermark = 0 ∨ b.length ≤ b.high_watermark then (b, [])
  else if b.above_high_watermark_called = false then
    let b1 := { b with above_high_watermark_called := true }
    if b1.overflow_watermark ≠ 0 ∧ b1.above_overflow_watermark_called = false ∧
        b1.overflow_watermark < b1.length then
      ({ b1 with above_overflow_watermark_called := true },
        [WatermarkEvent.aboveHigh, WatermarkEvent.aboveOverflow])
    else (b1, [WatermarkEvent.aboveHigh])
  else
    if b.overflow_watermark ≠ 0 ∧ b.above_overflow_watermark_called = false ∧
        b.overflow_watermark < b.length then
      ({ b with above_overflow_watermark_called := true },
        [WatermarkEvent.aboveOverflow])
    else (b, [])

/-- `WatermarkBuffer::checkLowWatermark` from `watermark_buffer.cc`:
early-return unless `above_high_watermark_called_` and
`(high_watermark_ == 0 || length() <= low_watermark_)`; otherwise clear the
flag and fire `below_low_watermark_`. -/
def checkLowWatermark (b : WatermarkBuffer) :
    WatermarkBuffer × List WatermarkEvent :=
  if b.above_high_watermark_called = false ∨
      (b.high_watermark ≠ 0 ∧ b.low_watermark < b.length) then
    (b, [])
  else
    ({ b with above_high_watermark_called := false }, [WatermarkEvent.belowLow])

/-- `WatermarkBuffer::setWatermarks` from `watermark_buffer.cc`.
`overflow_multiplier` is the value of the runtime key
`envoy.buffer.overflow_multiplier` (a `uint64_t` from `Runtime::getInteger`,
truncated by the assignment to the `uint32_t` local); if it is positive and the
64-bit product with `high_watermark` exceeds `UINT32_MAX`, the multiplier is
zeroed (overflow watermark disabled).  Then `low_watermark_ = high / 2`,
`high_watermark_ = high`, `overflow_watermark_ = multiplier * high` (a
`uint32_t` store, modelled with `% 2^32`), and both checks run in order. -/
def setWatermarks (overflow_multiplier : Nat) (b : WatermarkBuffer)
    (high_watermark : Nat) : WatermarkBuffer × List WatermarkEvent :=
  let multiplier0 := overflow_multiplier % 4294967296
  let multiplier :=
    if 0 < multiplier0 ∧ UINT32_MAX < multiplier0 * high_watermark then 0
    else multiplier0
  let b1 : WatermarkBuffer :=
    { b with low_watermark := high_watermark / 2,
             high_watermark := high_watermark,
             overflow_watermark := multiplier * high_watermark % 4294967296 }
  let r1 := checkHighAndOverflowWatermarks b1
  let r2 := checkLowWatermark r1.1
  (r2.1, r1.2 ++ r2.2)

/-- The length-affecting operations of `WatermarkBuffer` (the overridden
`Instance` methods of `watermark_buffer.h`).  The size argument of the growing
operations is the number of bytes appended/prepended/spliced/committed; for
`extractMutableFrontSlice` it is the size of the detached front slice.  The
several C++ overloads of `add`/`prepend`/`move` differ only in how the bytes
are supplied, not in the length effect or the post-check, so each carries one
constructor. -/
inductive WatermarkOp where
  | add (size : Nat)
  | prepend (size : Nat)
  | commit (size : Nat)
  | move (size : Nat)
  | drain (size : Nat)
  | extractMutableFrontSlice (front_size : Nat)
  | postProcess
  | setWatermarks (high_watermark : Nat)
deriving DecidableEq, Repr

/-- One wrapped operation: delegate the length effect to the base buffer
(modelled from the spec's operation table: add/prepend/commit/move append
`size` bytes, drain/extractMutableFrontSlice remove `size` bytes from the
front, postProcess leaves the length unchanged), then run the post-check the
C++ override runs (`checkHighAndOverflowWatermarks` after growth,
`checkLowWatermark` after shrinkage, both inside `setWatermarks`). -/
def step (overflow_multiplier : Nat) (b : WatermarkBuffer) :
    WatermarkOp → WatermarkBuffer × List WatermarkEvent
  | .add n => checkHighAndOverflowWatermarks { b with length := b.length + n }
  | .prepend n => checkHighAndOverflowWatermarks { b with length := b.length + n }
  | .commit n => checkHighAndOverflowWatermarks { b with length := b.length + n }
  | .move n => checkHighAndOverflowWatermarks { b with length := b.length + n }
  | .drain n => checkLowWatermark { b with length := b.length - n }
  | .extractMutableFrontSlice n => checkLowWatermark { b with length := b.length - n }
  | .postProcess => checkLowWatermark b
  | .setWatermarks h => setWatermarks overflow_multiplier b h

/-- A freshly constructed `WatermarkBuffer`: empty, watermarks disabled,
no callback fired. -/
def initBuffer : WatermarkBuffer :=
  { length := 0, high_watermark := 0, low_watermark := 0,
    overflow_watermark := 0, above_high_watermark_called := false,
    above_overflow_watermark_called := false }

/-- Run a sequence of operations, returning the final state and the
concatenated callback invocations. -/
def run (overflow_multiplier : Nat) (b : WatermarkBuffer) :
    List WatermarkOp → WatermarkBuffer × List WatermarkEvent
  | [] => (b, [])
  | op :: ops =>
    ((run overflow_multiplier (step overflow_multiplier b op).1 ops).1,
      (step overflow_multiplier b op).2 ++
        (run overflow_multiplier (step overflow_multiplier b op).1 ops).2)

/-- Run a sequence of operations, returning the per-operation lists of
callback invocations. -/
def runTrace (overflow_multiplier : Nat) (b : WatermarkBuffer) :
    List WatermarkOp → List (List WatermarkEvent)
  | [] => []
  | op :: ops =>
    (step overflow_multiplier b op).2 ::
      runTrace overflow_multiplier (step overflow_multiplier b op).1 ops

/-- The operations that mutate the buffer contents (everything except
`setWatermarks`, which mutates only the thresholds). -/
def WatermarkOp.isContentOp : WatermarkOp → Bool
  | .setWatermarks _ => false
  | _ => true

/-- The operations whose post-check is (or includes) `checkLowWatermark`:
`drain`, `extractMutableFrontSlice`, `postProcess` and `setWatermarks`. -/
def WatermarkOp.checksLow : WatermarkOp → Bool
  | .drain _ => true
  | .extractMutableFrontSlice _ => true
  | .postProcess => true
  | .setWatermarks _ => true
  | _ => false

/-- State invariant maintained by every operation: the low watermark is half
the high watermark, a buffer that has not latched the high callback is at or
under the high watermark (or watermarking is disabled), and a buffer with
watermarking disabled has no latched high callback. -/
def WatermarkInv (b : WatermarkBuffer) : Prop :=
  b.low_watermark = b.high_watermark / 2 ∧
  (b.above_high_watermark_called = false →
    b.high_watermark = 0 ∨ b.length ≤ b.high_watermark) ∧
  (b.high_watermark = 0 → b.above_high_watermark_called = false)

/-! ## Buffer memory accounts and the factory bucket index -/

/-- Fuel-driven binary length: `bitWidthAux fuel n` is the number of binary
digits of `n`, computed correctly whenever `n < 2 ^ fuel`. -/
def bitWidthAux : Nat → Nat → Nat
  | _, 0 => 0
  | 0, _ + 1 => 0
  | fuel + 1, n + 1 => bitWidthAux fuel ((n + 1) / 2) + 1

/-- `absl::bit_width` on the 64-bit values the source applies it to: the
number of binary digits (`0` for `0`, `floor(log2 n) + 1` otherwise). -/
def bit_width (n : Nat) : Nat := bitWidthAux 64 n

/-- `kDefaultMinimumTrackingBytes` from `watermark_buffer.cc`:
`absl::bit_width(uint32_t(1024 * 256)) - 1`. -/
def kDefaultMinimumTrackingBytes : Nat := bit_width (1024 * 256) - 1

/-- The `bitshift_` member initializer of the `WatermarkBufferFactory`
constructor: `config.account_tracking_threshold_bytes() ?
absl::bit_width(config.account_tracking_threshold_bytes() - 1) :
kDefaultMinimumTrackingBytes`. -/
def factoryBitshift (account_tracking_threshold_bytes : Nat) : Nat :=
  if account_tracking_threshold_bytes ≠ 0 then
    bit_width (account_tracking_threshold_bytes - 1)
  else kDefaultMinimumTrackingBytes

/-- `BufferMemoryAccountImpl::NUM_MEMORY_CLASSES_`. -/
def NUM_MEMORY_CLASSES : Nat := 8

/-- Accounts are identified by an opaque id standing for the
`BufferMemoryAccountSharedPtr` identity used by the factory's hash sets. -/
abbrev AccountId := Nat

/-- The mutable state of a `BufferMemoryAccountImpl`:
`buffer_memory_allocated_`, `current_bucket_idx_` (an
`absl::optional<uint32_t>`), whether `shared_this_` is non-null, and whether
`reset_handler_` still holds a value. -/
structure BufferMemoryAccountImpl where
  buffer_memory_allocated : Nat
  current_bucket_idx : Option Nat
  shared_this : Bool
  reset_handler : Bool
deriving DecidableEq, Repr

/-- `BufferMemoryAccountImpl::balanceToClassIndex` from `watermark_buffer.cc`:
shift the balance right by the factory bitshift; below-threshold balances are
untracked (`none`); otherwise the class is
`min(absl::bit_width(shifted_balance) - 1, NUM_MEMORY_CLASSES_ - 1)`. -/
def balanceToClassIndex (bitshift : Nat) (buffer_memory_allocated : Nat) :
    Option Nat :=
  let shifted_balance := buffer_memory_allocated >>> bitshift
  if shifted_balance = 0 then none
  else some (min (bit_width shifted_balance - 1) (NUM_MEMORY_CLASSES - 1))

/-- The factory's `size_class_account_sets_` (an `array<flat_hash_set, 8>`,
each set modelled as its element list in iteration order) together with the
per-id account states and a log of `resetDownstream` invocations. -/
structure AccountSystem where
  size_class_account_sets : Nat → List AccountId
  accounts : AccountId → BufferMemoryAccountImpl
  reset_log : List AccountId

/-- `WatermarkBufferFactory::updateAccountClass` from `watermark_buffer.cc`:
start tracking (insert into the new set), stop tracking (erase from the
current set) or move between buckets (extract from the current set, insert
into the new one).  The two classes are asserted different by the source; the
impossible `none, none` case leaves the sets unchanged. -/
def factoryUpdateAccountClass (sets : Nat → List AccountId) (id : AccountId) :
    Option Nat → Option Nat → (Nat → List AccountId)
  | none, some j => Function.update sets j (sets j ++ [id])
  | some i, none => Function.update sets i ((sets i).erase id)
  | some i, some j =>
    let sets1 := Function.update sets i ((sets i).erase id)
    Function.update sets1 j (sets1 j ++ [id])
  | none, none => sets

/-- `WatermarkBufferFactory::unregisterAccount` from `watermark_buffer.cc`:
erase the account from its current bucket set, if it is tracked. -/
def factoryUnregisterAccount (sets : Nat → List AccountId) (id : AccountId) :
    Option Nat → (Nat → List AccountId)
  | some i => Function.update sets i ((sets i).erase id)
  | none => sets

/-- `BufferMemoryAccountImpl::updateAccountClass` from `watermark_buffer.cc`:
recompute the class from the balance; if `shared_this_` is set and the class
changed, notify the factory and remember the new class. -/
def updateAccountClass (bitshift : Nat) (s : AccountSystem) (id : AccountId) :
    AccountSystem :=
  let a := s.accounts id
  let new_class := balanceToClassIndex bitshift a.buffer_memory_allocated
  if a.shared_this = true ∧ new_class ≠ a.current_bucket_idx then
    { s with
      size_class_account_sets :=
        factoryUpdateAccountClass s.size_class_account_sets id
          a.current_bucket_idx new_class,
      accounts :=
        Function.update s.accounts id { a with current_bucket_idx := new_class } }
  else s

/-- `BufferMemoryAccountImpl::charge`: add to the balance (overflow is
asserted away in the source; balances are `uint64_t`), then reclassify. -/
def charge (bitshift : Nat) (s : AccountSystem) (id : AccountId)
    (amount : Nat) : AccountSystem :=
  let a := s.accounts id
  updateAccountClass bitshift
    { s with
      accounts := Function.update s.accounts id
        { a with buffer_memory_allocated := a.buffer_memory_allocated + amount } }
    id

/-- `BufferMemoryAccountImpl::credit`: subtract from the balance (the source
asserts `buffer_memory_allocated_ >= amount`; `Nat` subtraction coincides with
the asserted-in-range behaviour), then reclassify. -/
def credit (bitshift : Nat) (s : AccountSystem) (id : AccountId)
    (amount : Nat) : AccountSystem :=
  let a := s.accounts id
  updateAccountClass bitshift
    { s with
      accounts := Function.update s.accounts id
        { a with buffer_memory_allocated := a.buffer_memory_allocated - amount } }
    id

/-- `BufferMemoryAccountImpl::clearDownstream` from `watermark_buffer.cc`: if
the reset handler is still held, release it, unregister from the factory,
clear `current_bucket_idx_` and null out `shared_this_`. -/
def clearDownstream (s : AccountSystem) (id : AccountId) : AccountSystem :=
  let a := s.accounts id
  if a.reset_handler = true then
    { s with
      size_class_account_sets :=
        factoryUnregisterAccount s.size_class_account_sets id
          a.current_bucket_idx,
      accounts := Function.update s.accounts id
        { a with reset_handler := false, current_bucket_idx := none,
                 shared_this := false } }
  else s

/-- `BufferMemoryAccountImpl::resetDownstream`: forward to the stream reset
handler when it is still held (otherwise a no-op).  Modelled from the spec for
the part outside the translated sources: the handler tears the stream down,
and the teardown calls `clearDownstream`, so "resetting removes the account
from the set" (the source's own comment at the factory walk says the reset
"will trigger an erase").  The invocation is recorded in `reset_log`. -/
def resetDownstream (s : AccountSystem) (id : AccountId) : AccountSystem :=
  if (s.accounts id).reset_handler = true then
    clearDownstream { s with reset_log := s.reset_log ++ [id] } id
  else s

/-- The inner iterator walk of
`WatermarkBufferFactory::resetAllAccountsInBucketsStartingWith`: visit the
elements of one bucket set in iteration order, taking the successor before
resetting so the erase triggered by the reset never invalidates the position
(advance-before-reset); each visited account is reset exactly as the C++ loop
does. -/
def walkSet (s : AccountSystem) (ids : List AccountId) : AccountSystem :=
  ids.foldl resetDownstream s

/-- `WatermarkBufferFactory::resetAllAccountsInBucketsStartingWith` from
`watermark_buffer.cc`: for each bucket index from `bucket_idx` up to
`NUM_MEMORY_CLASSES_ - 1`, walk the bucket's current set and reset every
account in it. -/
def resetAllAccountsInBucketsStartingWith (s : AccountSystem)
    (bucket_idx : Nat) : AccountSystem :=
  ((List.range NUM_MEMORY_CLASSES).drop bucket_idx).foldl
    (fun acc j => walkSet acc (acc.size_class_account_sets j)) s

/-- An account-balance operation (the mutators of `BufferMemoryAccount`). -/
inductive AccountOp where
  | charge (amount : Nat)
  | credit (amount : Nat)
deriving DecidableEq, Repr

/-- Apply a sequence of charges and credits to one account. -/
def runAccount (bitshift : Nat) (s : AccountSystem) (id : AccountId) :
    List AccountOp → AccountSystem
  | [] => s
  | AccountOp.charge n :: ops =>
    runAccount bitshift (charge bitshift s id n) id ops
  | AccountOp.credit n :: ops =>
    runAccount bitshift (credit bitshift s id n) id ops

/-- The balance a sequence of charges and credits leaves, starting from
`b` (charges add, credits subtract). -/
def applyAccountOps (b : Nat) : List AccountOp → Nat
  | [] => b
  | AccountOp.charge n :: ops => applyAccountOps (b + n) ops
  | AccountOp.credit n :: ops => applyAccountOps (b - n) ops

/-- A freshly created, registered account (`createAccount`): zero balance,
untracked, with both `shared_this_` and the reset handler set; the factory
sets are all empty. -/
def freshAccountSystem : AccountSystem :=
  { size_class_account_sets := fun _ => [],
    accounts := fun _ =>
      { buffer_memory_allocated := 0, current_bucket_idx := none,
        shared_this := true, reset_handler := true },
    reset_log := [] }

/-! ## Read-reservation sizing -/

/-- Modelled from the spec: `IntUtil::roundUpToMultiple` (base library,
outside the translated sources) rounds `val` up to the nearest multiple of
`multiple`. -/
def roundUpToMultiple (val multiple : Nat) : Nat :=
  (val + multiple - 1) / multiple * multiple

/-- Modelled from the spec: `Slice::default_slice_size_`
(`DEFAULT_SLICE_SIZE`), a constant of the base buffer subsystem; 4 KiB per
scenario S5. -/
def default_slice_size : Nat := 4096

/-- Modelled from the spec: `default_read_reservation_size_`
(`DEFAULT_READ_RESERVATION_SIZE`), a constant of the base buffer subsystem;
64 KiB per scenario S5. -/
def default_read_reservation_size : Nat := 65536

/-- The maximum length `WatermarkBuffer::reserveForRead` passes to
`OwnedImpl::reserveWithMaxLength` (from `watermark_buffer.cc`): the preferred
length unless watermarking is enabled, in which case a buffer at or over the
high watermark still gets one default slice, and otherwise the headroom to the
high watermark rounded up to a slice multiple, capped by the preferred
length. -/
def reserveForReadMaxLength (b : WatermarkBuffer) : Nat :=
  let preferred_length := default_read_reservation_size
  if 0 < b.high_watermark ∧ 0 < preferred_length then
    if b.high_watermark ≤ b.length then default_slice_size
    else
      min (roundUpToMultiple (b.high_watermark - b.length) default_slice_size)
        preferred_length
  else preferred_length

/-! ## Invariants and well-formedness predicates -/

/-- A buffer state reachable from construction by some operation sequence
(under a fixed runtime overflow multiplier). -/
def ReachableBuffer (overflow_multiplier : Nat) (b : WatermarkBuffer) : Prop :=
  ∃ ops, (run overflow_multiplier initBuffer ops).1 = b

/-- The factory/account state reached by running charges and credits on a
single freshly created account: the account's remembered bucket matches its
balance's class, `shared_this_` is still set, and the factory sets contain
exactly this account in exactly its bucket. -/
def SingleAccountInv (bitshift : Nat) (id : AccountId) (s : AccountSystem) :
    Prop :=
  (s.accounts id).shared_this = true ∧
  (s.accounts id).current_bucket_idx =
    balanceToClassIndex bitshift (s.accounts id).buffer_memory_allocated ∧
  ∀ j, s.size_class_account_sets j =
    if (s.accounts id).current_bucket_idx = some j then [id] else []

/-- Well-formedness of the factory's bucket index for the shedding walk: each
bucket set has no duplicates, the sets are pairwise disjoint, and every
tracked account still holds its reset handler and remembers the bucket it sits
in. -/
def ShedWF (s : AccountSystem) : Prop :=
  (∀ j < NUM_MEMORY_CLASSES, (s.size_class_account_sets j).Nodup) ∧
  (∀ i < NUM_MEMORY_CLASSES, ∀ j < NUM_MEMORY_CLASSES, i = j ∨
    ∀ id ∈ s.size_class_account_sets i, id ∉ s.size_class_account_sets j) ∧
  (∀ j < NUM_MEMORY_CLASSES, ∀ id ∈ s.size_class_account_sets j,
    (s.accounts id).reset_handler = true ∧
    (s.accounts id).current_bucket_idx = some j)

instance (s : AccountSystem) : Decidable (ShedWF s) := by
  unfold ShedWF; infer_instance

instance (b : WatermarkBuffer) : Decidable (WatermarkInv b) := by
  unfold WatermarkInv; infer_instance

/-- Scenario S4's starting state: three tracked accounts, in buckets 3, 5
and 7. -/
def s4System : AccountSystem :=
  { size_class_account_sets := fun j =>
      if j = 3 then [3] else if j = 5 then [5] else if j = 7 then [7] else [],
    accounts := fun id =>
      if id = 3 then
        { buffer_memory_allocated := 4194304, current_bucket_idx := some 3,
          shared_this := true, reset_handler := true }
      else if id = 5 then
        { buffer_memory_allocated := 16777216, current_bucket_idx := some 5,
          shared_this := true, reset_handler := true }
      else if id = 7 then
        { buffer_memory_allocated := 67108864, current_bucket_idx := some 7,
          shared_this := true, reset_handler := true }
      else
        { buffer_memory_allocated := 0, current_bucket_idx := none,
          shared_this := false, reset_handler := false },
    reset_log := [] }

/-! ## Helper lemmas: the two checks only touch the callback flags -/

theorem checkHigh_preserves (b : WatermarkBuffer) :
    (checkHighAndOverflowWatermarks b).1.length = b.length ∧
    (checkHighAndOverflowWatermarks b).1.high_watermark = b.high_watermark ∧
    (checkHighAndOverflowWatermarks b).1.low_watermark = b.low_watermark ∧
    (checkHighAndOverflowWatermarks b).1.overflow_watermark =
      b.overflow_watermark := by
  simp only [checkHighAndOverflowWatermarks]
  split_ifs <;> simp

theorem checkLow_preserves (b : WatermarkBuffer) :
    (checkLowWatermark b).1.length = b.length ∧
    (checkLowWatermark b).1.high_watermark = b.high_watermark ∧
    (checkLowWatermark b).1.low_watermark = b.low_watermark ∧
    (checkLowWatermark b).1.overflow_watermark = b.overflow_watermark ∧
    (checkLowWatermark b).1.above_overflow_watermark_called =
      b.above_overflow_watermark_called := by
  simp only [checkLowWatermark]
  split_ifs <;> simp

/-- C9: the claim asserts `bitshift = 17` for the default configuration; the
source computes `absl::bit_width(uint32_t(1024 * 256)) - 1 = 19 - 1 = 18`
(and its WIN32 fallback hard-codes 18), so 17 is refuted. -/
theorem c9_counterexample : factoryBitshift 0 ≠ 17 := by decide

/-- C9 (amended): with `account_tracking_threshold_bytes = 0` the factory-wide
bitshift constant used to classify account balances equals 18
(`kDefaultMinimumTrackingBytes`). -/
theorem c9_default_bitshift_is_18 :
    factoryBitshift 0 = 18 ∧ kDefaultMinimumTrackingBytes = 18 := by decide

/-- C4: the claim's scenario S1 is refuted: with `high = 100` the first
`add(60)` leaves length 60, and the rising check requires `length > high`, so
`above_high` does not fire there (and `below_low` cannot fire at `drain(10)`
since `above_high_fired` never became true); the claimed firing pattern does
not match the code. -/
theorem c4_counterexample :
    ¬ (runTrace 0 initBuffer
        [WatermarkOp.setWatermarks 100, WatermarkOp.add 60, WatermarkOp.add 10,
         WatermarkOp.drain 15, WatermarkOp.drain 10, WatermarkOp.add 60] =
      [[], [WatermarkEvent.aboveHigh], [], [], [WatermarkEvent.belowLow],
       [WatermarkEvent.aboveHigh]]) := by decide

/-- C4 (amended): on an empty buffer with `high_watermark = 100` the sequence
`add(60); add(10); drain(15); drain(10); add(60)` produces exactly one
callback firing: `above_high` at the final `add(60)` (length 105); no other
operation fires any callback (lengths 60, 70, 55 and 45 never exceed the high
watermark, and `below_low` cannot fire because `above_high_fired` was still
false at `drain(10)`). -/
theorem c4_s1_actual_trace :
    runTrace 0 initBuffer
      [WatermarkOp.setWatermarks 100, WatermarkOp.add 60, WatermarkOp.add 10,
       WatermarkOp.drain 15, WatermarkOp.drain 10, WatermarkOp.add 60] =
    [[], [], [], [], [], [WatermarkEvent.aboveHigh]] := by decide

/-- C7: `setWatermarks` checks the 64-bit product `multiplier * high` against
`UINT32_MAX` before storing: if the multiplier is positive and the product
overflows the 32-bit domain the stored overflow watermark is 0 (overflow
disabled), otherwise it is exactly `multiplier * high`; the `uint32_t` store
never truncates a wrapped product. -/
theorem c7_overflow_watermark_no_wrap (m h : Nat) (b : WatermarkBuffer)
    (hm : m ≤ UINT32_MAX) :
    (step m b (WatermarkOp.setWatermarks h)).1.overflow_watermark =
      (if 0 < m ∧ UINT32_MAX < m * h then 0 else m * h) ∧
    (step m b (WatermarkOp.setWatermarks h)).1.overflow_watermark =
      (if 0 < m ∧ UINT32_MAX < m * h then 0 else m) * h := by
  have hmod : m % 4294967296 = m := by
    apply Nat.mod_eq_of_lt
    simp only [UINT32_MAX] at hm
    omega
  simp only [step, setWatermarks, hmod]
  have hover :
      ∀ c : WatermarkBuffer,
        (checkLowWatermark (checkHighAndOverflowWatermarks c).1).1.overflow_watermark
          = c.overflow_watermark := by
    intro c
    rw [(checkLow_preserves (checkHighAndOverflowWatermarks c).1).2.2.2.1,
      (checkHigh_preserves c).2.2.2]
  rw [hover]
  by_cases hcase : 0 < m ∧ UINT32_MAX < m * h
  · simp [hcase]
  · simp only [if_neg hcase]
    rcases Nat.eq_zero_or_pos m with hz | hpos
    · subst hz; simp
    · have hle : m * h ≤ UINT32_MAX := by
        rcases Decidable.not_and_iff_or_not.mp hcase with h1 | h2
        · omega
        · omega
      constructor <;>
        · refine Nat.mod_eq_of_lt ?_
          simp only [UINT32_MAX] at hle
          omega

/-- C8: the claim's bound `max(DEFAULT_SLICE_SIZE, high − length)` is refuted:
with `high = 16 KiB` and `length = 12287` the headroom is 4097 bytes, which
rounds up to 8192, so the reservation maximum 8192 exceeds
`max(4096, 4097) = 4097`. -/
theorem c8_counterexample :
    ¬ (reserveForReadMaxLength
      { length := 12287, high_watermark := 16384, low_watermark := 8192,
        overflow_watermark := 0, above_high_watermark_called := false,
        above_overflow_watermark_called := false } ≤
      max default_slice_size (16384 - 12287)) := by decide

/-- C8 (amended): for every buffer state with `high_watermark > 0` (the
preferred read size being the positive constant 64 KiB), the maximum length
`reserveForRead` passes to the base buffer is never zero and never exceeds
`max(DEFAULT_SLICE_SIZE, roundUpToMultiple(high − length, DEFAULT_SLICE_SIZE))`:
if `length ≥ high` it is exactly `DEFAULT_SLICE_SIZE`, otherwise it is
`min(DEFAULT_READ_RESERVATION_SIZE, roundUpToMultiple(high − length,
DEFAULT_SLICE_SIZE))`; concretely (S5), with `high = 16 KiB` and
`length = 12 KiB` the reservation maximum is 4 KiB. -/
theorem c8_reserve_for_read_bound (b : WatermarkBuffer)
    (hhigh : 0 < b.high_watermark) :
    0 < reserveForReadMaxLength b ∧
    reserveForReadMaxLength b ≤
      max default_slice_size
        (roundUpToMultiple (b.high_watermark - b.length) default_slice_size) ∧
    (b.high_watermark ≤ b.length →
      reserveForReadMaxLength b = default_slice_size) ∧
    (b.length < b.high_watermark →
      reserveForReadMaxLength b =
        min default_read_reservation_size
          (roundUpToMultiple (b.high_watermark - b.length)
            default_slice_size)) ∧
    reserveForReadMaxLength
      { length := 12288, high_watermark := 16384, low_watermark := 8192,
        overflow_watermark := 0, above_high_watermark_called := false,
        above_overflow_watermark_called := false } = 4096 := by
  have hs5 : reserveForReadMaxLength
      { length := 12288, high_watermark := 16384, low_watermark := 8192,
        overflow_watermark := 0, above_high_watermark_called := false,
        above_overflow_watermark_called := false } = 4096 := by decide
  refine ⟨?_, ?_, ?_, ?_, hs5⟩ <;>
    (simp only [reserveForReadMaxLength, roundUpToMultiple, default_slice_size,
        default_read_reservation_size, min_def, max_def]
     split_ifs <;> intros <;> omega)

/-! ## Helper lemmas: which callbacks each check fires -/

theorem checkHigh_aboveHigh_mem (b : WatermarkBuffer) :
    WatermarkEvent.aboveHigh ∈ (checkHighAndOverflowWatermarks b).2 ↔
      (b.high_watermark ≠ 0 ∧ b.high_watermark < b.length ∧
        b.above_high_watermark_called = false) := by
  simp only [checkHighAndOverflowWatermarks]
  split_ifs <;> simp_all <;> omega

theorem checkHigh_no_belowLow (b : WatermarkBuffer) :
    WatermarkEvent.belowLow ∉ (checkHighAndOverflowWatermarks b).2 := by
  simp only [checkHighAndOverflowWatermarks]
  split_ifs <;> simp

theorem checkHigh_called_true_iff (b : WatermarkBuffer) :
    (checkHighAndOverflowWatermarks b).1.above_high_watermark_called = true ↔
      (b.above_high_watermark_called = true ∨
        (b.high_watermark ≠ 0 ∧ b.high_watermark < b.length)) := by
  simp only [checkHighAndOverflowWatermarks]
  split_ifs <;> simp_all <;> omega

theorem checkLow_belowLow_mem (b : WatermarkBuffer) :
    WatermarkEvent.belowLow ∈ (checkLowWatermark b).2 ↔
      (b.above_high_watermark_called = true ∧
        (b.high_watermark = 0 ∨ b.length ≤ b.low_watermark)) := by
  cases hb : b.above_high_watermark_called <;>
    simp only [checkLowWatermark, hb] <;> split_ifs <;> simp_all <;> omega

theorem checkLow_no_aboveHigh (b : WatermarkBuffer) :
    WatermarkEvent.aboveHigh ∉ (checkLowWatermark b).2 := by
  simp only [checkLowWatermark]
  split_ifs <;> simp

theorem checkLow_no_aboveOverflow (b : WatermarkBuffer) :
    WatermarkEvent.aboveOverflow ∉ (checkLowWatermark b).2 := by
  simp only [checkLowWatermark]
  split_ifs <;> simp

theorem checkLow_called_false_iff (b : WatermarkBuffer) :
    (checkLowWatermark b).1.above_high_watermark_called = false ↔
      (b.above_high_watermark_called = false ∨ b.high_watermark = 0 ∨
        b.length ≤ b.low_watermark) := by
  cases hb : b.above_high_watermark_called <;>
    simp only [checkLowWatermark, hb] <;> split_ifs <;> simp_all <;> omega

theorem checkLow_clears (b : WatermarkBuffer)
    (h : WatermarkEvent.belowLow ∈ (checkLowWatermark b).2) :
    (checkLowWatermark b).1.above_high_watermark_called = false := by
  simp only [checkLowWatermark] at h ⊢
  split_ifs at h ⊢ <;> simp_all

theorem checkHigh_aboveOverflow_mem (b : WatermarkBuffer) :
    WatermarkEvent.aboveOverflow ∈ (checkHighAndOverflowWatermarks b).2 ↔
      (b.high_watermark ≠ 0 ∧ b.high_watermark < b.length ∧
        b.overflow_watermark ≠ 0 ∧
        b.above_overflow_watermark_called = false ∧
        b.overflow_watermark < b.length) := by
  simp only [checkHighAndOverflowWatermarks]
  split_ifs <;> simp_all <;> omega

theorem checkHigh_overflow_called (b : WatermarkBuffer) :
    (checkHighAndOverflowWatermarks b).1.above_overflow_watermark_called = true ↔
      (b.above_overflow_watermark_called = true ∨
        WatermarkEvent.aboveOverflow ∈ (checkHighAndOverflowWatermarks b).2) := by
  simp only [checkHighAndOverflowWatermarks]
  split_ifs <;> simp_all

theorem checkHigh_overflow_count (b : WatermarkBuffer) :
    (checkHighAndOverflowWatermarks b).2.count WatermarkEvent.aboveOverflow ≤ 1 := by
  simp only [checkHighAndOverflowWatermarks]
  split_ifs <;> simp [List.count_cons, List.count_nil]

/-! ## The state invariant is preserved by every operation -/

theorem checkHigh_dec (c : WatermarkBuffer)
    (hc : (checkHighAndOverflowWatermarks c).1.above_high_watermark_called
      = false) :
    (checkHighAndOverflowWatermarks c).1.high_watermark = 0 ∨
      (checkHighAndOverflowWatermarks c).1.length ≤
        (checkHighAndOverflowWatermarks c).1.high_watermark := by
  obtain ⟨hl, hh, _, _⟩ := checkHigh_preserves c
  rw [hl, hh]
  have h2 : ¬(c.above_high_watermark_called = true ∨
      (c.high_watermark ≠ 0 ∧ c.high_watermark < c.length)) := by
    rw [← checkHigh_called_true_iff]; simp [hc]
  push_neg at h2
  rcases Nat.eq_zero_or_pos c.high_watermark with h3 | h3
  · exact Or.inl h3
  · exact Or.inr (by have := h2.2 (by omega); omega)

theorem watermarkInv_checkHigh (b : WatermarkBuffer)
    (hlow : b.low_watermark = b.high_watermark / 2)
    (h0 : b.high_watermark = 0 → b.above_high_watermark_called = false) :
    WatermarkInv (checkHighAndOverflowWatermarks b).1 := by
  obtain ⟨hl, hh, hlo, _⟩ := checkHigh_preserves b
  refine ⟨by rw [hlo, hh, hlow], checkHigh_dec b, ?_⟩
  intro hz
  rw [hh] at hz
  by_contra hc
  have hc' : (checkHighAndOverflowWatermarks b).1.above_high_watermark_called
      = true := by
    cases h : (checkHighAndOverflowWatermarks b).1.above_high_watermark_called
    · exact absurd h hc
    · rfl
  rcases (checkHigh_called_true_iff b).mp hc' with h1 | h1
  · exact absurd (h0 hz) (by simp [h1])
  · exact absurd hz h1.1

theorem watermarkInv_checkLow (b : WatermarkBuffer)
    (hlow : b.low_watermark = b.high_watermark / 2)
    (hdec : b.above_high_watermark_called = false →
      b.high_watermark = 0 ∨ b.length ≤ b.high_watermark) :
    WatermarkInv (checkLowWatermark b).1 := by
  obtain ⟨hl, hh, hlo, _, _⟩ := checkLow_preserves b
  refine ⟨by rw [hlo, hh, hlow], ?_, ?_⟩
  · intro hcalled
    rw [hl, hh]
    rcases (checkLow_called_false_iff b).mp hcalled with h1 | h1 | h1
    · exact hdec h1
    · exact Or.inl h1
    · refine Or.inr ?_
      have : b.high_watermark / 2 ≤ b.high_watermark := Nat.div_le_self _ _
      omega
  · intro hz
    rw [hh] at hz
    exact (checkLow_called_false_iff b).mpr (Or.inr (Or.inl hz))

theorem watermarkInv_checkHigh_checkLow (c : WatermarkBuffer)
    (hlow : c.low_watermark = c.high_watermark / 2) :
    WatermarkInv
      (checkLowWatermark (checkHighAndOverflowWatermarks c).1).1 := by
  apply watermarkInv_checkLow
  · obtain ⟨_, hh, hlo, _⟩ := checkHigh_preserves c
    rw [hlo, hh, hlow]
  · exact checkHigh_dec c

theorem watermarkInv_step (m : Nat) (b : WatermarkBuffer) (op : WatermarkOp)
    (h : WatermarkInv b) : WatermarkInv (step m b op).1 := by
  obtain ⟨hlow, hdec, hz⟩ := h
  cases op with
  | add n => exact watermarkInv_checkHigh _ hlow hz
  | prepend n => exact watermarkInv_checkHigh _ hlow hz
  | commit n => exact watermarkInv_checkHigh _ hlow hz
  | move n => exact watermarkInv_checkHigh _ hlow hz
  | drain n =>
    refine watermarkInv_checkLow _ hlow ?_
    intro hc
    rcases hdec hc with h1 | h1
    · exact Or.inl h1
    · exact Or.inr (by simp only []; omega)
  | extractMutableFrontSlice n =>
    refine watermarkInv_checkLow _ hlow ?_
    intro hc
    rcases hdec hc with h1 | h1
    · exact Or.inl h1
    · exact Or.inr (by simp only []; omega)
  | postProcess => exact watermarkInv_checkLow _ hlow hdec
  | setWatermarks hw =>
    simp only [step, setWatermarks]
    apply watermarkInv_checkHigh_checkLow
    rfl

theorem watermarkInv_run (m : Nat) (ops : List WatermarkOp) :
    ∀ b : WatermarkBuffer, WatermarkInv b → WatermarkInv (run m b ops).1 := by
  induction ops with
  | nil => intro b h; exact h
  | cons op ops ih =>
    intro b h
    simp only [run]
    exact ih _ (watermarkInv_step m b op h)

theorem watermarkInv_reachable (m : Nat) (b : WatermarkBuffer)
    (h : ReachableBuffer m b) : WatermarkInv b := by
  obtain ⟨ops, rfl⟩ := h
  exact watermarkInv_run m ops initBuffer (by decide)

theorem aboveHigh_grow_aux (b : WatermarkBuffer) (n : Nat)
    (hdec : b.above_high_watermark_called = false →
      b.high_watermark = 0 ∨ b.length ≤ b.high_watermark)
    (hhigh : 0 < b.high_watermark) :
    (WatermarkEvent.aboveHigh ∈
        (checkHighAndOverflowWatermarks { b with length := b.length + n }).2 ↔
      (b.length ≤ b.high_watermark ∧
        b.high_watermark <
          (checkHighAndOverflowWatermarks
            { b with length := b.length + n }).1.length ∧
        b.above_high_watermark_called = false)) ∧
    (WatermarkEvent.aboveHigh ∈
        (checkHighAndOverflowWatermarks { b with length := b.length + n }).2 →
      (checkHighAndOverflowWatermarks
        { b with length := b.length + n }).1.above_high_watermark_called
        = true) := by
  obtain ⟨hl, _, _, _⟩ := checkHigh_preserves { b with length := b.length + n }
  constructor
  · rw [checkHigh_aboveHigh_mem, hl]
    simp only
    constructor
    · rintro ⟨h1, h2, h3⟩
      refine ⟨?_, h2, h3⟩
      rcases hdec h3 with h4 | h4 <;> omega
    · rintro ⟨h1, h2, h3⟩
      exact ⟨by omega, h2, h3⟩
  · intro hmem
    rw [checkHigh_called_true_iff]
    obtain ⟨h1, h2, _⟩ := (checkHigh_aboveHigh_mem _).mp hmem
    exact Or.inr ⟨h1, h2⟩

theorem aboveHigh_shrink_aux (b c : WatermarkBuffer)
    (hlen : c.length ≤ b.length) (hhigh : c.high_watermark = b.high_watermark) :
    (WatermarkEvent.aboveHigh ∈ (checkLowWatermark c).2 ↔
      (b.length ≤ b.high_watermark ∧
        b.high_watermark < (checkLowWatermark c).1.length ∧
        b.above_high_watermark_called = false)) ∧
    (WatermarkEvent.aboveHigh ∈ (checkLowWatermark c).2 →
      (checkLowWatermark c).1.above_high_watermark_called = true) := by
  have hnot := checkLow_no_aboveHigh c
  obtain ⟨hl, _, _, _, _⟩ := checkLow_preserves c
  refine ⟨?_, fun hmem => absurd hmem hnot⟩
  rw [hl]
  constructor
  · intro hmem; exact absurd hmem hnot
  · rintro ⟨h1, h2, _⟩; omega

/-- C1: for every buffer state reachable by some operation sequence that has
`high_watermark > 0`, a content-mutating operation fires `above_high` exactly
when it makes the length transition from `≤ high_watermark` to
`> high_watermark` (strict rising inequality) while `above_high_fired`
(`above_high_watermark_called_`) was false, and the invocation sets
`above_high_fired`. -/
theorem c1_above_high_edge_triggered (m : Nat) (b : WatermarkBuffer)
    (op : WatermarkOp) (hreach : ReachableBuffer m b)
    (hhigh : 0 < b.high_watermark) (hop : op.isContentOp = true) :
    (WatermarkEvent.aboveHigh ∈ (step m b op).2 ↔
      (b.length ≤ b.high_watermark ∧
        b.high_watermark < (step m b op).1.length ∧
        b.above_high_watermark_called = false)) ∧
    (WatermarkEvent.aboveHigh ∈ (step m b op).2 →
      (step m b op).1.above_high_watermark_called = true) := by
  obtain ⟨hlow, hdec, hz⟩ := watermarkInv_reachable m b hreach
  cases op with
  | add n => exact aboveHigh_grow_aux b n hdec hhigh
  | prepend n => exact aboveHigh_grow_aux b n hdec hhigh
  | commit n => exact aboveHigh_grow_aux b n hdec hhigh
  | move n => exact aboveHigh_grow_aux b n hdec hhigh
  | drain n =>
    exact aboveHigh_shrink_aux b { b with length := b.length - n }
      (by simp only; omega) rfl
  | extractMutableFrontSlice n =>
    exact aboveHigh_shrink_aux b { b with length := b.length - n }
      (by simp only; omega) rfl
  | postProcess => exact aboveHigh_shrink_aux b b (Nat.le_refl _) rfl
  | setWatermarks hw => exact absurd hop (by simp [WatermarkOp.isContentOp])

theorem belowLow_shrink_aux (c : WatermarkBuffer) :
    (WatermarkEvent.belowLow ∈ (checkLowWatermark c).2 ↔
      (c.above_high_watermark_called = true ∧
        ((checkLowWatermark c).1.high_watermark = 0 ∨
          (checkLowWatermark c).1.length ≤
            (checkLowWatermark c).1.low_watermark))) ∧
    (WatermarkEvent.belowLow ∈ (checkLowWatermark c).2 →
      (checkLowWatermark c).1.above_high_watermark_called = false) := by
  obtain ⟨hl, hh, hlo, _, _⟩ := checkLow_preserves c
  rw [hl, hh, hlo]
  exact ⟨checkLow_belowLow_mem c, checkLow_clears c⟩

theorem belowLow_high_low_aux (c : WatermarkBuffer)
    (hlow : c.low_watermark = c.high_watermark / 2) :
    (WatermarkEvent.belowLow ∈
        ((checkHighAndOverflowWatermarks c).2 ++
          (checkLowWatermark (checkHighAndOverflowWatermarks c).1).2) ↔
      (c.above_high_watermark_called = true ∧
        ((checkLowWatermark (checkHighAndOverflowWatermarks c).1).1.high_watermark
            = 0 ∨
          (checkLowWatermark (checkHighAndOverflowWatermarks c).1).1.length ≤
            (checkLowWatermark
              (checkHighAndOverflowWatermarks c).1).1.low_watermark))) ∧
    (WatermarkEvent.belowLow ∈
        ((checkHighAndOverflowWatermarks c).2 ++
          (checkLowWatermark (checkHighAndOverflowWatermarks c).1).2) →
      (checkLowWatermark
        (checkHighAndOverflowWatermarks c).1).1.above_high_watermark_called
        = false) := by
  have hnomem := checkHigh_no_belowLow c
  have hmem2 := checkLow_belowLow_mem (checkHighAndOverflowWatermarks c).1
  have hcalled := checkHigh_called_true_iff c
  obtain ⟨hl2, hh2, hlo2, _, _⟩ :=
    checkLow_preserves (checkHighAndOverflowWatermarks c).1
  obtain ⟨hl1, hh1, hlo1, _⟩ := checkHigh_preserves c
  constructor
  · rw [List.mem_append, hl2, hh2, hlo2, hl1, hh1, hlo1]
    constructor
    · rintro (h | h)
      · exact absurd h hnomem
      · obtain ⟨hca, hcond⟩ := hmem2.mp h
        rw [hl1, hh1, hlo1] at hcond
        rcases hcalled.mp hca with h1 | h1
        · exact ⟨h1, hcond⟩
        · exfalso
          have hle : c.high_watermark / 2 ≤ c.high_watermark :=
            Nat.div_le_self _ _
          rcases hcond with h2 | h2
          · exact h1.1 h2
          · rw [hlow] at h2; omega
    · rintro ⟨hca, hcond⟩
      refine Or.inr (hmem2.mpr ⟨hcalled.mpr (Or.inl hca), ?_⟩)
      rw [hl1, hh1, hlo1]
      exact hcond
  · intro hmem
    rcases List.mem_append.mp hmem with h | h
    · exact absurd h hnomem
    · exact checkLow_clears _ h

/-- C2: `below_low` is invoked exactly when, with `above_high_fired` true, a
low-checking operation (`drain`, `extractMutableFrontSlice`, `postProcess` or
`setWatermarks`) leaves `length ≤ low_watermark` or leaves the high watermark
0 (watermarks disabled); the invocation clears `above_high_fired`.  In
particular `setWatermarks(0)` while `above_high_fired` is true fires
`below_low`. -/
theorem c2_below_low_fires_iff (m : Nat) (b : WatermarkBuffer)
    (op : WatermarkOp) :
    (WatermarkEvent.belowLow ∈ (step m b op).2 ↔
      (b.above_high_watermark_called = true ∧ op.checksLow = true ∧
        ((step m b op).1.high_watermark = 0 ∨
          (step m b op).1.length ≤ (step m b op).1.low_watermark))) ∧
    (WatermarkEvent.belowLow ∈ (step m b op).2 →
      (step m b op).1.above_high_watermark_called = false) ∧
    (b.above_high_watermark_called = true →
      WatermarkEvent.belowLow ∈
        (step m b (WatermarkOp.setWatermarks 0)).2) := by
  have hsw0 : b.above_high_watermark_called = true →
      WatermarkEvent.belowLow ∈
        (step m b (WatermarkOp.setWatermarks 0)).2 := by
    intro hb
    simp only [step, setWatermarks]
    refine List.mem_append.mpr (Or.inr ((checkLow_belowLow_mem _).mpr
      ⟨(checkHigh_called_true_iff _).mpr (Or.inl hb), ?_⟩))
    obtain ⟨_, hh1, _, _⟩ := checkHigh_preserves
      { b with low_watermark := 0 / 2, high_watermark := 0,
               overflow_watermark :=
                 (if 0 < m % 4294967296 ∧ UINT32_MAX < m % 4294967296 * 0
                  then 0 else m % 4294967296) * 0 % 4294967296 }
    rw [hh1]
    exact Or.inl rfl
  cases op with
  | add n =>
    refine ⟨?_, fun hmem => absurd hmem (checkHigh_no_belowLow _), hsw0⟩
    constructor
    · intro hmem; exact absurd hmem (checkHigh_no_belowLow _)
    · rintro ⟨_, h2, _⟩
      exact absurd h2 (by simp [WatermarkOp.checksLow])
  | prepend n =>
    refine ⟨?_, fun hmem => absurd hmem (checkHigh_no_belowLow _), hsw0⟩
    constructor
    · intro hmem; exact absurd hmem (checkHigh_no_belowLow _)
    · rintro ⟨_, h2, _⟩
      exact absurd h2 (by simp [WatermarkOp.checksLow])
  | commit n =>
    refine ⟨?_, fun hmem => absurd hmem (checkHigh_no_belowLow _), hsw0⟩
    constructor
    · intro hmem; exact absurd hmem (checkHigh_no_belowLow _)
    · rintro ⟨_, h2, _⟩
      exact absurd h2 (by simp [WatermarkOp.checksLow])
  | move n =>
    refine ⟨?_, fun hmem => absurd hmem (checkHigh_no_belowLow _), hsw0⟩
    constructor
    · intro hmem; exact absurd hmem (checkHigh_no_belowLow _)
    · rintro ⟨_, h2, _⟩
      exact absurd h2 (by simp [WatermarkOp.checksLow])
  | drain n =>
    obtain ⟨hiff, hcl⟩ := belowLow_shrink_aux { b with length := b.length - n }
    refine ⟨?_, hcl, hsw0⟩
    simp only [step]
    rw [hiff]
    simp [WatermarkOp.checksLow]
  | extractMutableFrontSlice n =>
    obtain ⟨hiff, hcl⟩ := belowLow_shrink_aux { b with length := b.length - n }
    refine ⟨?_, hcl, hsw0⟩
    simp only [step]
    rw [hiff]
    simp [WatermarkOp.checksLow]
  | postProcess =>
    obtain ⟨hiff, hcl⟩ := belowLow_shrink_aux b
    refine ⟨?_, hcl, hsw0⟩
    simp only [step]
    rw [hiff]
    simp [WatermarkOp.checksLow]
  | setWatermarks hw =>
    simp only [step, setWatermarks]
    obtain ⟨hiff, hcl⟩ := belowLow_high_low_aux
      { b with low_watermark := hw / 2, high_watermark := hw,
               overflow_watermark :=
                 (if 0 < m % 4294967296 ∧ UINT32_MAX < m % 4294967296 * hw
                  then 0 else m % 4294967296) * hw % 4294967296 } rfl
    refine ⟨?_, hcl, hsw0⟩
    rw [hiff]
    simp [WatermarkOp.checksLow]

theorem grow_overflow_aux (c : WatermarkBuffer) :
    (WatermarkEvent.aboveOverflow ∈ (checkHighAndOverflowWatermarks c).2 →
      c.above_overflow_watermark_called = false ∧
      (checkHighAndOverflowWatermarks c).1.above_overflow_watermark_called
        = true ∧
      0 < (checkHighAndOverflowWatermarks c).1.overflow_watermark ∧
      (checkHighAndOverflowWatermarks c).1.overflow_watermark <
        (checkHighAndOverflowWatermarks c).1.length) ∧
    (c.above_overflow_watermark_called = true →
      WatermarkEvent.aboveOverflow ∉ (checkHighAndOverflowWatermarks c).2 ∧
      (checkHighAndOverflowWatermarks c).1.above_overflow_watermark_called
        = true) ∧
    (checkHighAndOverflowWatermarks c).2.count WatermarkEvent.aboveOverflow
      ≤ 1 := by
  obtain ⟨hl, _, _, hov⟩ := checkHigh_preserves c
  refine ⟨?_, ?_, checkHigh_overflow_count c⟩
  · intro hmem
    obtain ⟨h1, h2, h3, h4, h5⟩ := (checkHigh_aboveOverflow_mem c).mp hmem
    refine ⟨h4, (checkHigh_overflow_called c).mpr (Or.inr hmem), ?_, ?_⟩
    · rw [hov]; omega
    · rw [hov, hl]; omega
  · intro hcall
    constructor
    · intro hmem
      have := ((checkHigh_aboveOverflow_mem c).mp hmem).2.2.2.1
      rw [hcall] at this
      exact absurd this (by simp)
    · exact (checkHigh_overflow_called c).mpr (Or.inl hcall)

theorem step_overflow_facts (m : Nat) (b : WatermarkBuffer)
    (op : WatermarkOp) :
    (WatermarkEvent.aboveOverflow ∈ (step m b op).2 →
      b.above_overflow_watermark_called = false ∧
      (step m b op).1.above_overflow_watermark_called = true ∧
      0 < (step m b op).1.overflow_watermark ∧
      (step m b op).1.overflow_watermark < (step m b op).1.length) ∧
    (b.above_overflow_watermark_called = true →
      WatermarkEvent.aboveOverflow ∉ (step m b op).2 ∧
      (step m b op).1.above_overflow_watermark_called = true) ∧
    (step m b op).2.count WatermarkEvent.aboveOverflow ≤ 1 := by
  cases op with
  | add n => exact grow_overflow_aux _
  | prepend n => exact grow_overflow_aux _
  | commit n => exact grow_overflow_aux _
  | move n => exact grow_overflow_aux _
  | drain n =>
    obtain ⟨_, _, _, _, hoc⟩ := checkLow_preserves
      { b with length := b.length - n }
    have hno := checkLow_no_aboveOverflow { b with length := b.length - n }
    simp only [step]
    exact ⟨fun hmem => absurd hmem hno, fun hcall => ⟨hno, by rw [hoc]; exact hcall⟩,
      by rw [List.count_eq_zero_of_not_mem hno]; omega⟩
  | extractMutableFrontSlice n =>
    obtain ⟨_, _, _, _, hoc⟩ := checkLow_preserves
      { b with length := b.length - n }
    have hno := checkLow_no_aboveOverflow { b with length := b.length - n }
    simp only [step]
    exact ⟨fun hmem => absurd hmem hno, fun hcall => ⟨hno, by rw [hoc]; exact hcall⟩,
      by rw [List.count_eq_zero_of_not_mem hno]; omega⟩
  | postProcess =>
    obtain ⟨_, _, _, _, hoc⟩ := checkLow_preserves b
    have hno := checkLow_no_aboveOverflow b
    simp only [step]
    exact ⟨fun hmem => absurd hmem hno, fun hcall => ⟨hno, by rw [hoc]; exact hcall⟩,
      by rw [List.count_eq_zero_of_not_mem hno]; omega⟩
  | setWatermarks hw =>
    simp only [step, setWatermarks]
    obtain ⟨hgrow, hlatch, hcount⟩ := grow_overflow_aux
      { b with low_watermark := hw / 2, high_watermark := hw,
               overflow_watermark :=
                 (if 0 < m % 4294967296 ∧ UINT32_MAX < m % 4294967296 * hw
                  then 0 else m % 4294967296) * hw % 4294967296 }
    obtain ⟨hl2, _, _, hov2, hoc2⟩ := checkLow_preserves
      (checkHighAndOverflowWatermarks
        { b with low_watermark := hw / 2, high_watermark := hw,
                 overflow_watermark :=
                   (if 0 < m % 4294967296 ∧ UINT32_MAX < m % 4294967296 * hw
                    then 0 else m % 4294967296) * hw % 4294967296 }).1
    have hno2 := checkLow_no_aboveOverflow
      (checkHighAndOverflowWatermarks
        { b with low_watermark := hw / 2, high_watermark := hw,
                 overflow_watermark :=
                   (if 0 < m % 4294967296 ∧ UINT32_MAX < m % 4294967296 * hw
                    then 0 else m % 4294967296) * hw % 4294967296 }).1
    refine ⟨?_, ?_, ?_⟩
    · intro hmem
      rcases List.mem_append.mp hmem with h | h
      · obtain ⟨h1, h2, h3, h4⟩ := hgrow h
        exact ⟨h1, by rw [hoc2]; exact h2, by rw [hov2]; exact h3,
          by rw [hov2, hl2]; exact h4⟩
      · exact absurd h hno2
    · intro hcall
      obtain ⟨hno1, hset⟩ := hlatch hcall
      constructor
      · intro hmem
        rcases List.mem_append.mp hmem with h | h
        · exact hno1 h
        · exact hno2 h
      · rw [hoc2]; exact hset
    · rw [List.count_append, List.count_eq_zero_of_not_mem hno2]
      omega

theorem run_overflow_count (m : Nat) (ops : List WatermarkOp) :
    ∀ b : WatermarkBuffer,
      (run m b ops).2.count WatermarkEvent.aboveOverflow ≤
        (if b.above_overflow_watermark_called = true then 0 else 1) := by
  induction ops with
  | nil => intro b; simp [run]
  | cons op ops ih =>
    intro b
    simp only [run, List.count_append]
    obtain ⟨hmem, hmono, hcount⟩ := step_overflow_facts m b op
    by_cases hb : b.above_overflow_watermark_called = true
    · obtain ⟨hno, hpost⟩ := hmono hb
      have h1 : (step m b op).2.count WatermarkEvent.aboveOverflow = 0 :=
        List.count_eq_zero_of_not_mem hno
      have h2 := ih (step m b op).1
      rw [if_pos hpost] at h2
      rw [if_pos hb, h1]
      omega
    · rw [if_neg hb]
      by_cases hm : WatermarkEvent.aboveOverflow ∈ (step m b op).2
      · have h3 := (hmem hm).2.1
        have h2 := ih (step m b op).1
        rw [if_pos h3] at h2
        omega
      · have h1 : (step m b op).2.count WatermarkEvent.aboveOverflow = 0 :=
          List.count_eq_zero_of_not_mem hm
        have h2 := ih (step m b op).1
        have h4 : (run m (step m b op).1 ops).2.count
            WatermarkEvent.aboveOverflow ≤ 1 := by
          rcases Decidable.em
            ((step m b op).1.above_overflow_watermark_called = true) with h | h
          · rw [if_pos h] at h2; omega
          · rw [if_neg h] at h2; omega
        omega

/-- C3: over any operation sequence from construction, `above_overflow` is
invoked at most once in the buffer's lifetime; any single operation invokes it
only if afterwards `overflow_watermark > 0` and `length > overflow_watermark`
(the latch `above_overflow_fired` is never cleared, so later `below_low`
firings cannot re-enable it); and scenario S2 holds: with `high = 100`,
`multiplier = 3` (overflow 300), `add(350)` fires `above_high` and
`above_overflow`, `drain(300)` fires `below_low`, and `add(400)` fires
`above_high` again but not `above_overflow`. -/
theorem c3_above_overflow_at_most_once :
    (∀ (m : Nat) (ops : List WatermarkOp),
      (run m initBuffer ops).2.count WatermarkEvent.aboveOverflow ≤ 1) ∧
    (∀ (m : Nat) (b : WatermarkBuffer) (op : WatermarkOp),
      WatermarkEvent.aboveOverflow ∈ (step m b op).2 →
        0 < (step m b op).1.overflow_watermark ∧
        (step m b op).1.overflow_watermark < (step m b op).1.length) ∧
    (∀ (m : Nat) (b : WatermarkBuffer) (op : WatermarkOp),
      b.above_overflow_watermark_called = true →
        (step m b op).1.above_overflow_watermark_called = true) ∧
    runTrace 3 initBuffer
      [WatermarkOp.setWatermarks 100, WatermarkOp.add 350,
       WatermarkOp.drain 300, WatermarkOp.add 400] =
      [[], [WatermarkEvent.aboveHigh, WatermarkEvent.aboveOverflow],
       [WatermarkEvent.belowLow], [WatermarkEvent.aboveHigh]] := by
  refine ⟨?_, ?_, ?_, by decide⟩
  · intro m ops
    have h := run_overflow_count m ops initBuffer
    simpa using h
  · intro m b op hmem
    obtain ⟨hfacts, _, _⟩ := step_overflow_facts m b op
    exact ⟨(hfacts hmem).2.2.1, (hfacts hmem).2.2.2⟩
  · intro m b op hcall
    obtain ⟨_, hmono, _⟩ := step_overflow_facts m b op
    exact (hmono hcall).2

/-! ## Account-side lemmas -/

theorem charge_cleared (bitshift : Nat) (s : AccountSystem) (id : AccountId)
    (n : Nat) (h : (s.accounts id).shared_this = false) :
    (∀ j, (charge bitshift s id n).size_class_account_sets j =
      s.size_class_account_sets j) ∧
    ((charge bitshift s id n).accounts id).buffer_memory_allocated =
      (s.accounts id).buffer_memory_allocated + n ∧
    ((charge bitshift s id n).accounts id).current_bucket_idx =
      (s.accounts id).current_bucket_idx ∧
    ((charge bitshift s id n).accounts id).shared_this = false := by
  refine ⟨?_, ?_, ?_, ?_⟩ <;>
    simp [charge, updateAccountClass, Function.update_same, h]

theorem credit_cleared (bitshift : Nat) (s : AccountSystem) (id : AccountId)
    (n : Nat) (h : (s.accounts id).shared_this = false) :
    (∀ j, (credit bitshift s id n).size_class_account_sets j =
      s.size_class_account_sets j) ∧
    ((credit bitshift s id n).accounts id).buffer_memory_allocated =
      (s.accounts id).buffer_memory_allocated - n ∧
    ((credit bitshift s id n).accounts id).current_bucket_idx =
      (s.accounts id).current_bucket_idx ∧
    ((credit bitshift s id n).accounts id).shared_this = false := by
  refine ⟨?_, ?_, ?_, ?_⟩ <;>
    simp [credit, updateAccountClass, Function.update_same, h]

theorem runAccount_cleared (bitshift : Nat) (ops : List AccountOp) :
    ∀ (s : AccountSystem) (id : AccountId),
      (s.accounts id).shared_this = false →
      (∀ j, (runAccount bitshift s id ops).size_class_account_sets j =
        s.size_class_account_sets j) ∧
      ((runAccount bitshift s id ops).accounts id).buffer_memory_allocated =
        applyAccountOps (s.accounts id).buffer_memory_allocated ops ∧
      ((runAccount bitshift s id ops).accounts id).current_bucket_idx =
        (s.accounts id).current_bucket_idx ∧
      ((runAccount bitshift s id ops).accounts id).shared_this = false := by
  induction ops with
  | nil =>
    intro s id h
    exact ⟨fun j => rfl, rfl, rfl, h⟩
  | cons op ops ih =>
    intro s id h
    cases op with
    | charge n =>
      obtain ⟨hsets1, hbal1, hcur1, hsh1⟩ := charge_cleared bitshift s id n h
      obtain ⟨hsets2, hbal2, hcur2, hsh2⟩ := ih (charge bitshift s id n) id hsh1
      refine ⟨fun j => by rw [show runAccount bitshift s id
          (AccountOp.charge n :: ops) =
          runAccount bitshift (charge bitshift s id n) id ops from rfl,
          hsets2 j, hsets1 j], ?_, ?_, ?_⟩ <;>
        rw [show runAccount bitshift s id (AccountOp.charge n :: ops) =
          runAccount bitshift (charge bitshift s id n) id ops from rfl]
      · rw [hbal2, hbal1]; rfl
      · rw [hcur2, hcur1]
      · exact hsh2
    | credit n =>
      obtain ⟨hsets1, hbal1, hcur1, hsh1⟩ := credit_cleared bitshift s id n h
      obtain ⟨hsets2, hbal2, hcur2, hsh2⟩ := ih (credit bitshift s id n) id hsh1
      refine ⟨fun j => by rw [show runAccount bitshift s id
          (AccountOp.credit n :: ops) =
          runAccount bitshift (credit bitshift s id n) id ops from rfl,
          hsets2 j, hsets1 j], ?_, ?_, ?_⟩ <;>
        rw [show runAccount bitshift s id (AccountOp.credit n :: ops) =
          runAccount bitshift (credit bitshift s id n) id ops from rfl]
      · rw [hbal2, hbal1]; rfl
      · rw [hcur2, hcur1]
      · exact hsh2

/-- C10: once `clearDownstream` has run on an account (nulling `shared_this_`
and removing the bucket registration), every subsequent `charge`/`credit`
still updates the balance but leaves every factory bucket set untouched and
never re-registers the account (the `shared_this_ && ...` guard in
`updateAccountClass` is skipped): a cleared account stays untracked for the
rest of its lifetime regardless of balance. -/
theorem c10_cleared_account_stays_untracked (bitshift : Nat)
    (s : AccountSystem) (id : AccountId) (ops : List AccountOp)
    (hcleared : (s.accounts id).shared_this = false) :
    (∀ j, (runAccount bitshift s id ops).size_class_account_sets j =
      s.size_class_account_sets j) ∧
    ((runAccount bitshift s id ops).accounts id).buffer_memory_allocated =
      applyAccountOps (s.accounts id).buffer_memory_allocated ops ∧
    ((runAccount bitshift s id ops).accounts id).current_bucket_idx =
      (s.accounts id).current_bucket_idx ∧
    ((runAccount bitshift s id ops).accounts id).shared_this = false ∧
    (∀ (s2 : AccountSystem) (id2 : AccountId),
      (s2.accounts id2).reset_handler = true →
      ((clearDownstream s2 id2).accounts id2).shared_this = false ∧
      ((clearDownstream s2 id2).accounts id2).current_bucket_idx = none ∧
      ((clearDownstream s2 id2).accounts id2).buffer_memory_allocated =
        (s2.accounts id2).buffer_memory_allocated) := by
  obtain ⟨hsets, hbal, hcur, hsh⟩ := runAccount_cleared bitshift ops s id hcleared
  refine ⟨hsets, hbal, hcur, hsh, ?_⟩
  intro s2 id2 h2
  simp [clearDownstream, h2, Function.update_same]

theorem factoryUpdate_single (sets : Nat → List AccountId) (id : AccountId)
    (cur new : Option Nat) (hne : new ≠ cur)
    (hsets : ∀ j, sets j = if cur = some j then [id] else []) (j : Nat) :
    factoryUpdateAccountClass sets id cur new j =
      if new = some j then [id] else [] := by
  rcases cur with _ | i <;> rcases new with _ | j0
  · exact absurd rfl hne
  · simp only [factoryUpdateAccountClass]
    by_cases hj : j = j0
    · subst hj
      rw [Function.update_same, hsets j]
      simp
    · rw [Function.update_noteq hj, hsets j]
      simp [hj, Ne.symm hj]
  · simp only [factoryUpdateAccountClass]
    by_cases hj : j = i
    · subst hj
      rw [Function.update_same, hsets j]
      simp
    · rw [Function.update_noteq hj, hsets j]
      simp [Ne.symm hj]
  · have hij : i ≠ j0 := by
      intro h
      exact hne (by rw [h])
    simp only [factoryUpdateAccountClass]
    by_cases hj : j = j0
    · subst hj
      rw [Function.update_same, Function.update_noteq (Ne.symm hij), hsets j]
      simp [hij, Ne.symm hij]
    · rw [Function.update_noteq hj]
      by_cases hji : j = i
      · subst hji
        rw [Function.update_same, hsets j]
        simp [hj, Ne.symm hj]
      · rw [Function.update_noteq hji, hsets j]
        simp [Ne.symm hji, Ne.symm hj, hj]

theorem updateAccountClass_single (bitshift : Nat) (id : AccountId)
    (s : AccountSystem)
    (hsh : (s.accounts id).shared_this = true)
    (hsets : ∀ j, s.size_class_account_sets j =
      if (s.accounts id).current_bucket_idx = some j then [id] else []) :
    SingleAccountInv bitshift id (updateAccountClass bitshift s id) ∧
    ((updateAccountClass bitshift s id).accounts id).buffer_memory_allocated =
      (s.accounts id).buffer_memory_allocated := by
  by_cases heq : balanceToClassIndex bitshift
      (s.accounts id).buffer_memory_allocated =
      (s.accounts id).current_bucket_idx
  · have hres : updateAccountClass bitshift s id = s := by
      simp [updateAccountClass, heq]
    rw [hres]
    exact ⟨⟨hsh, heq.symm, hsets⟩, rfl⟩
  · have hguard : (s.accounts id).shared_this = true ∧
        balanceToClassIndex bitshift
          (s.accounts id).buffer_memory_allocated ≠
          (s.accounts id).current_bucket_idx := ⟨hsh, heq⟩
    simp only [updateAccountClass, if_pos hguard]
    refine ⟨⟨?_, ?_, ?_⟩, ?_⟩
    · simp [Function.update_same, hsh]
    · simp [Function.update_same]
    · intro j
      simp only [Function.update_same]
      exact factoryUpdate_single s.size_class_account_sets id
        (s.accounts id).current_bucket_idx
        (balanceToClassIndex bitshift
          (s.accounts id).buffer_memory_allocated) heq hsets j
    · simp [Function.update_same]

theorem charge_single (bitshift : Nat) (id : AccountId) (s : AccountSystem)
    (n : Nat) (hinv : SingleAccountInv bitshift id s) :
    SingleAccountInv bitshift id (charge bitshift s id n) ∧
    ((charge bitshift s id n).accounts id).buffer_memory_allocated =
      (s.accounts id).buffer_memory_allocated + n := by
  obtain ⟨hsh, hcur, hsets⟩ := hinv
  have h := updateAccountClass_single bitshift id
    { s with
        accounts := Function.update s.accounts id
          ({ s.accounts id with
              buffer_memory_allocated :=
                (s.accounts id).buffer_memory_allocated + n }) }
    (by simp [Function.update_same, hsh])
    (by intro j
        simp only [Function.update_same]
        exact hsets j)
  constructor
  · exact h.1
  · have h2 := h.2
    simp only [Function.update_same] at h2
    exact h2

theorem credit_single (bitshift : Nat) (id : AccountId) (s : AccountSystem)
    (n : Nat) (hinv : SingleAccountInv bitshift id s) :
    SingleAccountInv bitshift id (credit bitshift s id n) ∧
    ((credit bitshift s id n).accounts id).buffer_memory_allocated =
      (s.accounts id).buffer_memory_allocated - n := by
  obtain ⟨hsh, hcur, hsets⟩ := hinv
  have h := updateAccountClass_single bitshift id
    { s with
        accounts := Function.update s.accounts id
          ({ s.accounts id with
              buffer_memory_allocated :=
                (s.accounts id).buffer_memory_allocated - n }) }
    (by simp [Function.update_same, hsh])
    (by intro j
        simp only [Function.update_same]
        exact hsets j)
  constructor
  · exact h.1
  · have h2 := h.2
    simp only [Function.update_same] at h2
    exact h2

theorem runAccount_single (bitshift : Nat) (id : AccountId)
    (ops : List AccountOp) :
    ∀ s : AccountSystem, SingleAccountInv bitshift id s →
      SingleAccountInv bitshift id (runAccount bitshift s id ops) := by
  induction ops with
  | nil => intro s h; exact h
  | cons op ops ih =>
    intro s h
    cases op with
    | charge n => exact ih _ (charge_single bitshift id s n h).1
    | credit n => exact ih _ (credit_single bitshift id s n h).1

theorem singleAccountInv_fresh (bitshift : Nat) (id : AccountId) :
    SingleAccountInv bitshift id freshAccountSystem := by
  refine ⟨rfl, ?_, fun j => ?_⟩
  · simp [freshAccountSystem, balanceToClassIndex, Nat.zero_shiftRight]
  · simp [freshAccountSystem]

/-- C5: for any factory bitshift and any sequence of charges and credits on a
freshly created account, writing `B = balance >> bitshift`: the account sits
in exactly one bucket set iff `B > 0`, namely the set with index
`min(bit_width(B) − 1, NUM_MEMORY_CLASSES − 1)`; if `B = 0` it is in no bucket
set.  The S3 outcomes hold for the 256 KiB default threshold (bitshift
`factoryBitshift 0`): 128 KiB → no bucket, 256 KiB → bucket 0, 512 KiB →
bucket 1, 32.5 MiB → bucket 7, and crediting 32 MiB back returns the account
to bucket 1. -/
theorem c5_bucket_matches_balance_class (bitshift : Nat) (id : AccountId)
    (ops : List AccountOp) :
    (0 < ((runAccount bitshift freshAccountSystem id ops).accounts
        id).buffer_memory_allocated >>> bitshift →
      ∀ j, (id ∈ (runAccount bitshift freshAccountSystem id
          ops).size_class_account_sets j ↔
        j = min (bit_width (((runAccount bitshift freshAccountSystem id
            ops).accounts id).buffer_memory_allocated >>> bitshift) - 1)
          (NUM_MEMORY_CLASSES - 1))) ∧
    (((runAccount bitshift freshAccountSystem id ops).accounts
        id).buffer_memory_allocated >>> bitshift = 0 →
      ∀ j, id ∉ (runAccount bitshift freshAccountSystem id
        ops).size_class_account_sets j) ∧
    (balanceToClassIndex (factoryBitshift 0) 131072 = none ∧
      balanceToClassIndex (factoryBitshift 0) 262144 = some 0 ∧
      balanceToClassIndex (factoryBitshift 0) 524288 = some 1 ∧
      balanceToClassIndex (factoryBitshift 0) 34078720 = some 7 ∧
      ((runAccount (factoryBitshift 0) freshAccountSystem 0
          [AccountOp.charge 131072, AccountOp.charge 131072,
           AccountOp.charge 262144,
           AccountOp.charge 33554432]).accounts 0).current_bucket_idx
        = some 7 ∧
      ((runAccount (factoryBitshift 0) freshAccountSystem 0
          [AccountOp.charge 131072, AccountOp.charge 131072,
           AccountOp.charge 262144, AccountOp.charge 33554432,
           AccountOp.credit 33554432]).accounts 0).current_bucket_idx
        = some 1 ∧
      (runAccount (factoryBitshift 0) freshAccountSystem 0
          [AccountOp.charge 131072, AccountOp.charge 131072,
           AccountOp.charge 262144, AccountOp.charge 33554432,
           AccountOp.credit 33554432]).size_class_account_sets 1 = [0]) := by
  obtain ⟨hsh, hcur, hsets⟩ := runAccount_single bitshift id ops
    freshAccountSystem (singleAccountInv_fresh bitshift id)
  refine ⟨?_, ?_, by decide⟩
  · intro hB j
    rw [hsets j, hcur]
    have hclass : balanceToClassIndex bitshift
        ((runAccount bitshift freshAccountSystem id ops).accounts
          id).buffer_memory_allocated =
        some (min (bit_width (((runAccount bitshift freshAccountSystem id
            ops).accounts id).buffer_memory_allocated >>> bitshift) - 1)
          (NUM_MEMORY_CLASSES - 1)) := by
      simp only [balanceToClassIndex]
      rw [if_neg (by omega)]
    rw [hclass]
    split_ifs with h
    · simp only [Option.some.injEq] at h
      simp [h]
    · simp only [Option.some.injEq] at h
      simp only [List.not_mem_nil, false_iff]
      intro hc
      exact h hc.symm
  · intro hB j
    rw [hsets j, hcur]
    have hclass : balanceToClassIndex bitshift
        ((runAccount bitshift freshAccountSystem id ops).accounts
          id).buffer_memory_allocated = none := by
      simp only [balanceToClassIndex]
      rw [if_pos hB]
    rw [hclass]
    simp

theorem resetDownstream_spec (s : AccountSystem) (x : AccountId) (j : Nat)
    (hh : (s.accounts x).reset_handler = true)
    (hcur : (s.accounts x).current_bucket_idx = some j) :
    (resetDownstream s x).reset_log = s.reset_log ++ [x] ∧
    (∀ j2, j2 ≠ j → (resetDownstream s x).size_class_account_sets j2 =
      s.size_class_account_sets j2) ∧
    (resetDownstream s x).size_class_account_sets j =
      (s.size_class_account_sets j).erase x ∧
    (∀ id2, id2 ≠ x → (resetDownstream s x).accounts id2 = s.accounts id2) := by
  refine ⟨?_, ?_, ?_, ?_⟩
  · simp [resetDownstream, clearDownstream, hh]
  · intro j2 hj2
    simp only [resetDownstream, clearDownstream, hh, if_pos, hcur,
      factoryUnregisterAccount]
    rw [Function.update_noteq hj2]
  · simp only [resetDownstream, clearDownstream, hh, if_pos, hcur,
      factoryUnregisterAccount]
    rw [Function.update_same]
  · intro id2 hid2
    simp only [resetDownstream, clearDownstream, hh, if_pos, hcur,
      factoryUnregisterAccount]
    rw [Function.update_noteq hid2]

theorem walkSet_spec (j : Nat) (ids : List AccountId) :
    ∀ s : AccountSystem,
      s.size_class_account_sets j = ids →
      ids.Nodup →
      (∀ id ∈ ids, (s.accounts id).reset_handler = true ∧
        (s.accounts id).current_bucket_idx = some j) →
      (walkSet s ids).reset_log = s.reset_log ++ ids ∧
      (walkSet s ids).size_class_account_sets j = [] ∧
      (∀ j2, j2 ≠ j → (walkSet s ids).size_class_account_sets j2 =
        s.size_class_account_sets j2) ∧
      (∀ id2, id2 ∉ ids → (walkSet s ids).accounts id2 = s.accounts id2) := by
  induction ids with
  | nil =>
    intro s hset hnd hall
    exact ⟨(List.append_nil _).symm, hset, fun j2 _ => rfl, fun id2 _ => rfl⟩
  | cons x xs ih =>
    intro s hset hnd hall
    obtain ⟨hhx, hcx⟩ := hall x (List.mem_cons_self x xs)
    obtain ⟨hlog1, hoth1, hsetj1, hacc1⟩ := resetDownstream_spec s x j hhx hcx
    have hxnotin : x ∉ xs := (List.nodup_cons.mp hnd).1
    have hs1set : (resetDownstream s x).size_class_account_sets j = xs := by
      rw [hsetj1, hset, List.erase_cons_head]
    have hs1all : ∀ id ∈ xs,
        ((resetDownstream s x).accounts id).reset_handler = true ∧
        ((resetDownstream s x).accounts id).current_bucket_idx = some j := by
      intro id hid
      rw [hacc1 id (by intro he; rw [he] at hid; exact hxnotin hid)]
      exact hall id (List.mem_cons_of_mem x hid)
    obtain ⟨hlog2, hj2, hoth2, hacc2⟩ := ih (resetDownstream s x) hs1set
      (List.nodup_cons.mp hnd).2 hs1all
    refine ⟨?_, hj2, ?_, ?_⟩
    · rw [show walkSet s (x :: xs) = walkSet (resetDownstream s x) xs from rfl,
        hlog2, hlog1]
      simp
    · intro j2 hj2ne
      rw [show walkSet s (x :: xs) = walkSet (resetDownstream s x) xs from rfl,
        hoth2 j2 hj2ne, hoth1 j2 hj2ne]
    · intro id2 hid2
      rw [show walkSet s (x :: xs) = walkSet (resetDownstream s x) xs from rfl,
        hacc2 id2 (fun h => hid2 (List.mem_cons_of_mem x h)),
        hacc1 id2 (by intro he; rw [he] at hid2; exact hid2 (List.mem_cons_self x xs))]

theorem mem_drop_range8 (k j : Nat) (hk : k < 8) :
    j ∈ (List.range 8).drop k ↔ k ≤ j ∧ j < 8 := by
  have h : List.range 8 = [0, 1, 2, 3, 4, 5, 6, 7] := rfl
  rw [h]
  interval_cases k <;> simp <;> omega

theorem foldWalk_spec (js : List Nat) :
    ∀ s : AccountSystem,
      js.Nodup →
      (∀ j ∈ js, (s.size_class_account_sets j).Nodup) →
      (∀ j ∈ js, ∀ j2 ∈ js, j = j2 ∨
        ∀ id ∈ s.size_class_account_sets j,
          id ∉ s.size_class_account_sets j2) →
      (∀ j ∈ js, ∀ id ∈ s.size_class_account_sets j,
        (s.accounts id).reset_handler = true ∧
        (s.accounts id).current_bucket_idx = some j) →
      (js.foldl (fun acc j => walkSet acc (acc.size_class_account_sets j))
        s).reset_log =
        s.reset_log ++ (js.map s.size_class_account_sets).flatten ∧
      (∀ j ∈ js,
        (js.foldl (fun acc j => walkSet acc (acc.size_class_account_sets j))
          s).size_class_account_sets j = []) ∧
      (∀ j, j ∉ js →
        (js.foldl (fun acc j => walkSet acc (acc.size_class_account_sets j))
          s).size_class_account_sets j = s.size_class_account_sets j) ∧
      (∀ id, (∀ j ∈ js, id ∉ s.size_class_account_sets j) →
        (js.foldl (fun acc j => walkSet acc (acc.size_class_account_sets j))
          s).accounts id = s.accounts id) := by
  induction js with
  | nil =>
    intro s _ _ _ _
    exact ⟨by simp, by simp, fun j _ => rfl, fun id _ => rfl⟩
  | cons j0 jt ih =>
    intro s hnd hnds hdisj hall
    obtain ⟨hlog1, hempty1, hoth1, hacc1⟩ :=
      walkSet_spec j0 (s.size_class_account_sets j0) s rfl
        (hnds j0 (List.mem_cons_self j0 jt))
        (hall j0 (List.mem_cons_self j0 jt))
    have hj0nt : j0 ∉ jt := (List.nodup_cons.mp hnd).1
    have hne : ∀ j ∈ jt, j ≠ j0 := by
      intro j hj he
      rw [he] at hj
      exact hj0nt hj
    have hsets1 : ∀ j ∈ jt,
        (walkSet s (s.size_class_account_sets j0)).size_class_account_sets j =
          s.size_class_account_sets j :=
      fun j hj => hoth1 j (hne j hj)
    have hacc1' : ∀ j ∈ jt,
        ∀ id ∈ s.size_class_account_sets j,
          (walkSet s (s.size_class_account_sets j0)).accounts id =
            s.accounts id := by
      intro j hj id hid
      refine hacc1 id ?_
      rcases hdisj j (List.mem_cons_of_mem j0 hj) j0
          (List.mem_cons_self j0 jt) with he | hd
      · exact absurd he (hne j hj)
      · exact hd id hid
    obtain ⟨hlog2, hempty2, hoth2, hacc2⟩ :=
      ih (walkSet s (s.size_class_account_sets j0))
        (List.nodup_cons.mp hnd).2
        (by intro j hj; rw [hsets1 j hj]; exact hnds j (List.mem_cons_of_mem j0 hj))
        (by intro j hj j2 hj2
            rw [hsets1 j hj, hsets1 j2 hj2]
            exact hdisj j (List.mem_cons_of_mem j0 hj) j2
              (List.mem_cons_of_mem j0 hj2))
        (by intro j hj id hid
            rw [hsets1 j hj] at hid
            rw [hacc1' j hj id hid]
            exact hall j (List.mem_cons_of_mem j0 hj) id hid)
    have hfold : (j0 :: jt).foldl
        (fun acc j => walkSet acc (acc.size_class_account_sets j)) s =
        jt.foldl (fun acc j => walkSet acc (acc.size_class_account_sets j))
          (walkSet s (s.size_class_account_sets j0)) := rfl
    refine ⟨?_, ?_, ?_, ?_⟩
    · rw [hfold, hlog2, hlog1, List.map_cons, List.flatten_cons,
        List.map_congr_left hsets1, List.append_assoc]
    · intro j hj
      rw [hfold]
      rcases List.mem_cons.mp hj with he | hjt
      · rw [he, hoth2 j0 hj0nt, hempty1]
      · exact hempty2 j hjt
    · intro j hj
      rw [hfold, hoth2 j (fun h => hj (List.mem_cons_of_mem j0 h)),
        hoth1 j (fun h => hj (by rw [h]; exact List.mem_cons_self j0 jt))]
    · intro id hid
      rw [hfold, hacc2 id ?_, hacc1 id (hid j0 (List.mem_cons_self j0 jt))]
      intro j hj
      rw [hsets1 j hj]
      exact hid j (List.mem_cons_of_mem j0 hj)

/-- C6: with a well-formed bucket index and `k < NUM_MEMORY_CLASSES`,
`resetAllAccountsInBucketsStartingWith k` invokes `resetDownstream` on exactly
the accounts currently in bucket sets `k .. NUM_MEMORY_CLASSES-1` (the reset
log grows by precisely their concatenation, which is duplicate-free, so each
is reset exactly once), empties those buckets, and leaves the buckets below
`k` — and the account records of the accounts in them — untouched; the walk
advances before each reset, so the erase triggered by a reset never breaks
the iteration. -/
theorem c6_shedding_walk (s : AccountSystem) (k : Nat)
    (hk : k < NUM_MEMORY_CLASSES) (hwf : ShedWF s) :
    (resetAllAccountsInBucketsStartingWith s k).reset_log =
      s.reset_log ++
        (((List.range NUM_MEMORY_CLASSES).drop k).map
          s.size_class_account_sets).flatten ∧
    ((((List.range NUM_MEMORY_CLASSES).drop k).map
      s.size_class_account_sets).flatten).Nodup ∧
    (∀ j, k ≤ j → j < NUM_MEMORY_CLASSES →
      (resetAllAccountsInBucketsStartingWith s
        k).size_class_account_sets j = []) ∧
    (∀ j < k, (resetAllAccountsInBucketsStartingWith s
      k).size_class_account_sets j = s.size_class_account_sets j) ∧
    (∀ j < k, ∀ id ∈ s.size_class_account_sets j,
      (resetAllAccountsInBucketsStartingWith s k).accounts id =
        s.accounts id) := by
  obtain ⟨hnds, hdisj, hall⟩ := hwf
  have hk8 : k < 8 := hk
  have hmem : ∀ j, j ∈ (List.range NUM_MEMORY_CLASSES).drop k ↔
      (k ≤ j ∧ j < NUM_MEMORY_CLASSES) := fun j => mem_drop_range8 k j hk8
  have hndjs : ((List.range NUM_MEMORY_CLASSES).drop k).Nodup :=
    (List.nodup_range _).sublist (List.drop_sublist _ _)
  obtain ⟨hlog, hempty, hoth, hacc⟩ :=
    foldWalk_spec ((List.range NUM_MEMORY_CLASSES).drop k) s hndjs
      (by intro j hj
          exact hnds j ((hmem j).mp hj).2)
      (by intro j hj j2 hj2
          rcases hdisj j ((hmem j).mp hj).2 j2 ((hmem j2).mp hj2).2 with h | h
          · exact Or.inl h
          · exact Or.inr h)
      (by intro j hj
          exact hall j ((hmem j).mp hj).2)
  refine ⟨hlog, ?_, ?_, ?_, ?_⟩
  · rw [List.nodup_flatten]
    constructor
    · intro l hl
      obtain ⟨j, hj, rfl⟩ := List.mem_map.mp hl
      exact hnds j ((hmem j).mp hj).2
    · rw [List.pairwise_map]
      refine List.Pairwise.imp_of_mem ?_ hndjs
      intro a b ha hb hne
      rcases hdisj a ((hmem a).mp ha).2 b ((hmem b).mp hb).2 with h | h
      · exact absurd h hne
      · intro x hx hx2
        exact h x hx hx2
  · intro j hjk hjn
    exact hempty j ((hmem j).mpr ⟨hjk, hjn⟩)
  · intro j hj
    refine hoth j ?_
    intro h
    have := ((hmem j).mp h).1
    omega
  · intro j hj id hid
    refine hacc id ?_
    intro j2 hj2
    have hk2 := ((hmem j2).mp hj2).1
    rcases hdisj j (by omega) j2 ((hmem j2).mp hj2).2 with h | h
    · omega
    · exact h id hid

/-! ## Concrete witnesses -/

/-- C1 witness: on the reachable buffer of length 60 with `high = 100`,
`add(41)` (length 101) fires `above_high`. -/
theorem c1_witness :
    WatermarkEvent.aboveHigh ∈
      (step 0 (run 0 initBuffer
        [WatermarkOp.setWatermarks 100, WatermarkOp.add 60]).1
        (WatermarkOp.add 41)).2 :=
  (c1_above_high_edge_triggered 0
    (run 0 initBuffer [WatermarkOp.setWatermarks 100, WatermarkOp.add 60]).1
    (WatermarkOp.add 41)
    ⟨[WatermarkOp.setWatermarks 100, WatermarkOp.add 60], rfl⟩
    (by decide) (by decide)).1.mpr (by decide)

/-- C2 witness: `setWatermarks(0)` on a latched buffer fires `below_low`. -/
theorem c2_witness :
    WatermarkEvent.belowLow ∈
      (step 0
        { length := 200, high_watermark := 100, low_watermark := 50,
          overflow_watermark := 0, above_high_watermark_called := true,
          above_overflow_watermark_called := false }
        (WatermarkOp.setWatermarks 0)).2 :=
  (c2_below_low_fires_iff 0
    { length := 200, high_watermark := 100, low_watermark := 50,
      overflow_watermark := 0, above_high_watermark_called := true,
      above_overflow_watermark_called := false }
    (WatermarkOp.drain 0)).2.2 (by decide)

/-- C3 witness: the S2 trace fires `above_overflow` exactly once. -/
theorem c3_witness :
    (run 3 initBuffer
      [WatermarkOp.setWatermarks 100, WatermarkOp.add 350,
       WatermarkOp.drain 300, WatermarkOp.add 400]).2.count
      WatermarkEvent.aboveOverflow ≤ 1 :=
  c3_above_overflow_at_most_once.1 3
    [WatermarkOp.setWatermarks 100, WatermarkOp.add 350,
     WatermarkOp.drain 300, WatermarkOp.add 400]

/-- C5 witness: after a 256 KiB charge under bitshift 18 the account sits in
bucket set 0. -/
theorem c5_witness :
    0 ∈ (runAccount 18 freshAccountSystem 0
      [AccountOp.charge 262144]).size_class_account_sets 0 :=
  ((c5_bucket_matches_balance_class 18 0 [AccountOp.charge 262144]).1
    (by decide) 0).mpr (by decide)

/-- C6 witness: scenario S4 — shedding buckets 5 and above of `s4System`
resets exactly the accounts of buckets 5 and 7, in bucket order. -/
theorem c6_witness :
    (resetAllAccountsInBucketsStartingWith s4System 5).reset_log =
      s4System.reset_log ++
        (((List.range NUM_MEMORY_CLASSES).drop 5).map
          s4System.size_class_account_sets).flatten :=
  (c6_shedding_walk s4System 5 (by decide) (by decide)).1

/-- C7 witness: multiplier 65536 with high watermark 65537 overflows the
32-bit domain, so the stored overflow watermark is 0. -/
theorem c7_witness :
    (step 65536 initBuffer (WatermarkOp.setWatermarks 65537)).1.overflow_watermark =
      (if 0 < 65536 ∧ UINT32_MAX < 65536 * 65537 then 0 else 65536 * 65537) :=
  (c7_overflow_watermark_no_wrap 65536 65537 initBuffer (by decide)).1

/-- C8 witness: the S5 input yields a positive reservation maximum. -/
theorem c8_witness :
    0 < reserveForReadMaxLength
      { length := 12288, high_watermark := 16384, low_watermark := 8192,
        overflow_watermark := 0, above_high_watermark_called := false,
        above_overflow_watermark_called := false } :=
  (c8_reserve_for_read_bound
    { length := 12288, high_watermark := 16384, low_watermark := 8192,
      overflow_watermark := 0, above_high_watermark_called := false,
      above_overflow_watermark_called := false } (by decide)).1

/-- C10 witness: charging and crediting an untracked (cleared) account of
`s4System` updates only its balance. -/
theorem c10_witness :
    ((runAccount 18 s4System 9
      [AccountOp.charge 5, AccountOp.credit 2]).accounts
        9).buffer_memory_allocated =
      applyAccountOps (s4System.accounts 9).buffer_memory_allocated
        [AccountOp.charge 5, AccountOp.credit 2] :=
  (c10_cleared_account_stays_untracked 18 s4System 9
    [AccountOp.charge 5, AccountOp.credit 2] (by decide)).2.1

end Buffer
end Envoy
